import Mathlib

/-!
Shallow embedding of the plugin runtime manager of `pkg/plugin/manager.py`
(class `PluginManager`) of the LangBot repository.  The companion data
model (`RuntimeContainer`, `RuntimeContainerStatus`, `EventContext`, the
plugin base class) lives in `pkg/plugin/context.py`, which is not among the
provided sources; those parts are modelled from the spec (sections 3 and
4.4) and are marked as such on each declaration.  Machine behaviour of the
manager itself (filtering, ordering, the dispatch loop, the lifecycle and
settings operations) is translated directly from `manager.py`.
-/

namespace LangBot

/-- Event kinds.  The source dispatches on the runtime class of the event
object (`event.__class__`); following the spec's design note this is
modelled as an explicit kind tag. -/
abbrev EvType := Nat

/-- Attribute values carried by events; opaque in the source, represented
by strings. -/
abbrev Val := String

/-- Events are records of named attributes, modelled as an association
list from attribute name to value: `hasattr` is key membership, `setattr`
overwrites the value stored at a key (and would create it if absent). -/
abbrev Event := List (String × Val)

/-- Configuration blob of a plugin: an opaque key-value document in the
source. -/
abbrev Config := List (String × Val)

/-- Modelled from the spec: lifecycle status of a runtime container
(`RuntimeContainerStatus` in the missing `pkg/plugin/context.py`). -/
inductive RuntimeContainerStatus
  | MOUNTED
  | INITIALIZED
deriving DecidableEq

/-- Modelled from the spec: the live plugin object.  The manager injects
the descriptor's config into it (`plugin.plugin_inst.config =
plugin.plugin_config`); no other instance state is read by the manager. -/
structure PluginInstance where
  config : Config
deriving DecidableEq

/-- Modelled from the spec: the per-emission event context (`EventContext`
in the missing `pkg/plugin/context.py`): the triggering event, the two
control booleans (both initially false), and the map from field name to
the ordered sequence of override values contributed by handlers
(`__return_value__`), kept as an association list in insertion order. -/
structure EventContext where
  event : Event
  prevented_default : Bool
  prevented_postorder : Bool
  return_value : List (String × List Val)

/-- An event handler, as invoked by the manager:
`plugin.event_handlers[event.__class__](plugin.plugin_inst, ctx)`.
Handlers are arbitrary plugin code mutating the context in place; the
boolean records whether the handler raised (the returned context is the
state the handler left behind, which may be partially mutated even when it
raised). -/
abbrev Handler := Option PluginInstance → EventContext → EventContext × Bool

/-- Modelled from the spec: the runtime container of one plugin
(`RuntimeContainer` in the missing `pkg/plugin/context.py`), restricted to
the fields the manager reads or writes.  `init_throws` / `destroy_throws`
model whether the plugin's async init hook resp. teardown hook raises
(plugin code is external to the manager). -/
structure RuntimeContainer where
  plugin_author : String
  plugin_name : String
  enabled : Bool
  priority : Int
  status : RuntimeContainerStatus
  plugin_config : Config
  plugin_inst : Option PluginInstance
  event_handlers : EvType → Option Handler
  init_throws : Bool
  destroy_throws : Bool

/-- Translation of `PluginManager.plugins(enabled, status)`: the container
list filtered by the optional enabled flag and then by the optional
status, preserving order. -/
def plugins (cs : List RuntimeContainer) (en : Option Bool)
    (st : Option RuntimeContainerStatus) : List RuntimeContainer :=
  let ps := match en with
    | none => cs
    | some e => cs.filter (fun p => p.enabled == e)
  match st with
  | none => ps
  | some s => ps.filter (fun p => decide (p.status = s))

/-- Translation of `PluginManager.get_plugin_by_name`: first container
with the given name, if any. -/
def get_plugin_by_name (cs : List RuntimeContainer) (n : String) :
    Option RuntimeContainer :=
  cs.find? (fun p => p.plugin_name == n)

/-- Sorting step of `PluginManager.load_plugins`:
`self.plugin_containers.sort(key=lambda x: x.priority, reverse=False)` —
a stable ascending sort by priority. -/
def sortByPriority (cs : List RuntimeContainer) : List RuntimeContainer :=
  List.insertionSort (fun a b => a.priority ≤ b.priority) cs

/-- Fresh event context built at the start of `emit_event`
(`context.EventContext(host=..., event=event)`); both control flags start
false and the override map starts empty (spec section 3). -/
def init_ctx (e : Event) : EventContext :=
  { event := e
    prevented_default := false
    prevented_postorder := false
    return_value := [] }

/-- One record of the dispatch trace: which plugin was invoked, whether
its handler raised (the source logs and swallows this), and the value of
`ctx.is_prevented_postorder()` observed right after the invocation (the
source breaks the walk when it is true). -/
structure EmitRecord where
  plugin : RuntimeContainer
  threw : Bool
  postorder_after : Bool

/-- Dispatch loop of `PluginManager.emit_event`: walk the given container
list; for each container that declares a handler for the event kind,
invoke it (a raising handler is caught and logged, never aborting the
walk), record it in `emitted_plugins`, and break out of the walk as soon
as `ctx.is_prevented_postorder()` is observed true. -/
def emit_walk (ev : EvType) :
    List RuntimeContainer → EventContext → EventContext × List EmitRecord
  | [], ctx => (ctx, [])
  | p :: rest, ctx =>
    match p.event_handlers ev with
    | none => emit_walk ev rest ctx
    | some h =>
      let r := h p.plugin_inst ctx
      if r.1.prevented_postorder then
        (r.1, [⟨p, r.2, r.1.prevented_postorder⟩])
      else
        let w := emit_walk ev rest r.1
        (w.1, ⟨p, r.2, r.1.prevented_postorder⟩ :: w.2)

/-- Attribute lookup on an event (`getattr` / key membership for
`hasattr`). -/
def lookupField : Event → String → Option Val
  | [], _ => none
  | (k', v) :: rest, k => if k' == k then some v else lookupField rest k

/-- Attribute update on an event (`setattr`): overwrite the value at the
key, or append the attribute when it is absent. -/
def set_field : Event → String → Val → Event
  | [], k, v => [(k, v)]
  | (k', v') :: rest, k, v =>
    if k' == k then (k, v) :: rest else (k', v') :: set_field rest k v

/-- Override-merge step at the end of `PluginManager.emit_event`:
`for key in ctx.__return_value__.keys(): if hasattr(ctx.event, key):
setattr(ctx.event, key, ctx.__return_value__[key][0])`.  Each key is
applied in insertion order; only the first recorded value is written, and
only when the event already has the attribute.  An empty value sequence
cannot be produced through the context's contribution interface; the
model leaves the event unchanged in that vacuous branch. -/
def apply_return_values : List (String × List Val) → Event → Event
  | [], e => e
  | (k, vs) :: rest, e =>
    apply_return_values rest
      (if (lookupField e k).isSome then
        match vs with
        | [] => e
        | v :: _ => set_field e k v
      else e)

/-- Context state at the end of the walk of `emit_event` (before the
override merge). -/
def walk_ctx (cs : List RuntimeContainer) (ev : EvType) (e : Event) :
    EventContext :=
  (emit_walk ev
    (plugins cs (some true) (some RuntimeContainerStatus.INITIALIZED))
    (init_ctx e)).1

/-- Translation of `PluginManager.emit_event`: build a fresh context, walk
the containers that are enabled and INITIALIZED, then write the first
recorded override value of every overridden field back onto the event
(only for attributes the event already has), and return the context
together with the dispatch trace. -/
def emit_event (cs : List RuntimeContainer) (ev : EvType) (e : Event) :
    EventContext × List EmitRecord :=
  let w := emit_walk ev
    (plugins cs (some true) (some RuntimeContainerStatus.INITIALIZED))
    (init_ctx e)
  ({ w.1 with event := apply_return_values w.1.return_value w.1.event }, w.2)

/-- Containers an emission of kind `ev` actually dispatches to when
nothing halts the walk: enabled, INITIALIZED, and declaring a handler for
`ev`. -/
def handlingEligible (cs : List RuntimeContainer) (ev : EvType) :
    List RuntimeContainer :=
  (plugins cs (some true) (some RuntimeContainerStatus.INITIALIZED)).filter
    (fun p => (p.event_handlers ev).isSome)

/-- Modelled from the spec: the contribution interface of the event
context appends a value to the ordered sequence recorded for a field name
(creating a one-element sequence for a fresh field). -/
def add_return_entry : List (String × List Val) → String → Val →
    List (String × List Val)
  | [], k, v => [(k, [v])]
  | (k', vs) :: rest, k, v =>
    if k' == k then (k', vs ++ [v]) :: rest
    else (k', vs) :: add_return_entry rest k v

/-- Modelled from the spec: a handler contributing an override value for a
named field of the event. -/
def add_return (ctx : EventContext) (k : String) (v : Val) : EventContext :=
  { ctx with return_value := add_return_entry ctx.return_value k v }

/-- Errors the manager's orchestration can surface to its caller:
`notFound` for operations naming an unknown plugin (the `ValueError` of
`uninstall_plugin`), `hookError` for an exception raised by plugin code
and left uncaught by the manager function at hand. -/
inductive PErr
  | notFound
  | hookError
deriving DecidableEq

/-- Externally visible actions of the lifecycle operations, used to state
ordering properties: invocation of a plugin's teardown hook, the delegated
installer uninstall, and the full runtime reload that follows it. -/
inductive PluginAction
  | destroyHook (author : String) (plugin_name : String)
  | installerUninstall (plugin_name : String)
  | reloadPlugin
deriving DecidableEq

/-- Translation of `PluginManager.initialize_plugin`: construct the plugin
instance, inject the container's config into it, run the async init hook
(which may raise — the manager does not catch here), and only then set
status to INITIALIZED.  Returns the container as the call leaves it and
whether the hook raised; on a raise the instance has already been
assigned but the status is untouched. -/
def init_plugin (c : RuntimeContainer) : RuntimeContainer × Bool :=
  let c1 := { c with plugin_inst := some ⟨c.plugin_config⟩ }
  if c.init_throws then (c1, true)
  else ({ c1 with status := RuntimeContainerStatus.INITIALIZED }, false)

/-- Translation of `PluginManager.destroy_plugin`: return immediately when
status is not INITIALIZED; otherwise invoke the instance's teardown
(`__del__` and the async `destroy` hook — there is no try/except in this
method, so a raise propagates to the caller with the container left
INITIALIZED), and on success clear the instance and set status MOUNTED.
Also returns the action trace (the teardown hook invocation, when it
happens). -/
def destroy_plugin (c : RuntimeContainer) :
    RuntimeContainer × Bool × List PluginAction :=
  if c.status ≠ RuntimeContainerStatus.INITIALIZED then (c, false, [])
  else if c.destroy_throws then
    (c, true, [PluginAction.destroyHook c.plugin_author c.plugin_name])
  else
    ({ c with plugin_inst := none, status := RuntimeContainerStatus.MOUNTED },
      false, [PluginAction.destroyHook c.plugin_author c.plugin_name])

/-- Translation of `PluginManager.destroy_plugins`: destroy every
INITIALIZED container in turn, catching and logging any exception a
single `destroy_plugin` call raises and continuing with the rest. -/
def destroy_plugins : List RuntimeContainer → List RuntimeContainer
  | [] => []
  | c :: rest =>
    if c.status ≠ RuntimeContainerStatus.INITIALIZED then
      c :: destroy_plugins rest
    else
      (destroy_plugin c).1 :: destroy_plugins rest

/-- One persisted settings row (`persistence_plugin.PluginSetting`),
keyed by `(plugin_author, plugin_name)`. -/
structure PluginSetting where
  plugin_author : String
  plugin_name : String
  enabled : Bool
  priority : Int
  config : Config
deriving DecidableEq

/-- The settings store: its rows, plus which keys make the store raise
when queried (`execute_async` failures are arbitrary exceptions; the model
localises them per key). -/
structure SettingsStore where
  records : List PluginSetting
  fails : String → String → Bool

/-- Row lookup by `(plugin_author, plugin_name)` — the `select ... where`
of `load_plugin_settings`. -/
def find_setting (recs : List PluginSetting) (a n : String) :
    Option PluginSetting :=
  recs.find? (fun s => s.plugin_author == a && s.plugin_name == n)

/-- Translation of `PluginManager.load_plugin_settings`: for each
container query the store; when no row exists, insert the container's
current values as the initial record; when a row exists, overwrite the
container's enabled/priority/config from it.  The loop body has no
try/except, so a store failure raises out of the whole loop: the result
carries the container list as it stands at that point (earlier containers
already merged in place, the failing one and all later ones untouched),
the store, and whether a failure was raised. -/
def load_plugin_settings (store : SettingsStore) :
    List RuntimeContainer → List RuntimeContainer × SettingsStore × Bool
  | [] => ([], store, false)
  | c :: rest =>
    if store.fails c.plugin_author c.plugin_name then (c :: rest, store, true)
    else
      match find_setting store.records c.plugin_author c.plugin_name with
      | none =>
        let store' : SettingsStore :=
          { store with records := store.records ++
              [⟨c.plugin_author, c.plugin_name, c.enabled, c.priority,
                c.plugin_config⟩] }
        let w := load_plugin_settings store' rest
        (c :: w.1, w.2)
      | some s =>
        let c' := { c with enabled := s.enabled
                           priority := s.priority
                           plugin_config := s.config }
        let w := load_plugin_settings store rest
        (c' :: w.1, w.2)

/-- Translation of `PluginManager.dump_plugin_container_setting`: an
`update ... where` that overwrites the enabled/priority/config columns of
the row matching the container's key (a no-op when no row matches). -/
def dump_setting (recs : List PluginSetting) (c : RuntimeContainer) :
    List PluginSetting :=
  recs.map (fun s =>
    if s.plugin_author == c.plugin_author && s.plugin_name == c.plugin_name
    then { s with enabled := c.enabled
                  priority := c.priority
                  config := c.plugin_config }
    else s)

/-- In-memory manager state touched by the lifecycle operations: the
container collection and the persisted settings rows. -/
structure ManagerState where
  containers : List RuntimeContainer
  settings : List PluginSetting

/-- The toggle step of `update_plugin_switch`: enabling runs
`initialize_plugin`, disabling runs `destroy_plugin`; returns the
container as the call leaves it and whether the hook raised. -/
def switch_apply (c : RuntimeContainer) (v : Bool) : RuntimeContainer × Bool :=
  if v then init_plugin c
  else
    let d := destroy_plugin c
    (d.1, d.2.1)

/-- Outcome of the scan loop inside `update_plugin_switch`. -/
inductive SwitchOutcome
  | noMatch
  | alreadySet
  | failed
  | switched (c : RuntimeContainer)

/-- The `for plugin in self.plugins()` loop of `update_plugin_switch`:
find the first container with the given name; return False when its
enabled flag already equals the requested value; otherwise toggle it
(initialize or destroy — a raising hook propagates out of the loop with
the container as the hook call left it), set the enabled flag, and stop. -/
def switch_scan (v : Bool) (n : String) :
    List RuntimeContainer → List RuntimeContainer × SwitchOutcome
  | [] => ([], SwitchOutcome.noMatch)
  | c :: rest =>
    if c.plugin_name == n then
      if c.enabled == v then (c :: rest, SwitchOutcome.alreadySet)
      else
        let a := switch_apply c v
        if a.2 then (a.1 :: rest, SwitchOutcome.failed)
        else
          let c2 := { a.1 with enabled := v }
          (c2 :: rest, SwitchOutcome.switched c2)
    else
      let w := switch_scan v n rest
      (c :: w.1, w.2)

/-- Translation of `PluginManager.update_plugin_switch`: return False when
no container has the given name; otherwise run the scan loop — a no-op
returning False when the flag already has the requested value, and
otherwise toggle, persist the container's settings row, and return True.
A hook exception propagates to the caller (`Except.error`) before the
enabled flag is updated or the row persisted. -/
def update_plugin_switch (st : ManagerState) (n : String) (v : Bool) :
    ManagerState × Except PErr Bool :=
  if (get_plugin_by_name st.containers n).isSome then
    match switch_scan v n st.containers with
    | (cs', SwitchOutcome.alreadySet) =>
      ({ st with containers := cs' }, Except.ok false)
    | (cs', SwitchOutcome.failed) =>
      ({ st with containers := cs' }, Except.error PErr.hookError)
    | (cs', SwitchOutcome.switched c') =>
      ({ containers := cs', settings := dump_setting st.settings c' },
        Except.ok true)
    | (cs', SwitchOutcome.noMatch) =>
      ({ st with containers := cs' }, Except.ok true)
  else (st, Except.ok false)

/-- Replace the first container with the given name (in-place mutation of
the object found by `get_plugin_by_name`). -/
def replace_first_named (n : String) (c' : RuntimeContainer) :
    List RuntimeContainer → List RuntimeContainer
  | [] => []
  | c :: rest =>
    if c.plugin_name == n then c' :: rest
    else c :: replace_first_named n c' rest

/-- Translation of `PluginManager.uninstall_plugin`: raise `ValueError`
when no container has the given name (no installer call, no reload);
otherwise run `destroy_plugin` on it (a teardown exception propagates and
the installer is never reached), then delegate to the installer's
uninstall and trigger the plugin-scope reload. -/
def uninstall_plugin (st : ManagerState) (n : String) :
    ManagerState × List PluginAction × Option PErr :=
  match get_plugin_by_name st.containers n with
  | none => (st, [], some PErr.notFound)
  | some c =>
    let d := destroy_plugin c
    let st' := { st with containers := replace_first_named n d.1 st.containers }
    if d.2.1 then (st', d.2.2, some PErr.hookError)
    else
      (st', d.2.2 ++ [PluginAction.installerUninstall n,
        PluginAction.reloadPlugin], none)

/-! Concrete sample plugins and handlers used to evaluate the theorems on
closed inputs. -/

/-- Handler that does nothing and returns normally. -/
def idHandler : Handler := fun _ ctx => (ctx, false)

/-- Handler that requests that no later plugin runs
(`ctx.prevent_postorder()`). -/
def stopHandler : Handler :=
  fun _ ctx => ({ ctx with prevented_postorder := true }, false)

/-- Handler that raises. -/
def throwHandler : Handler := fun _ ctx => (ctx, true)

/-- Handler contributing the override value x for the field text. -/
def overrideXHandler : Handler :=
  fun _ ctx => (add_return ctx "text" "x", false)

/-- Handler contributing the override value y for the field text. -/
def overrideYHandler : Handler :=
  fun _ ctx => (add_return ctx "text" "y", false)

/-- Sample enabled, INITIALIZED container handling event kind 0 with the
given handler. -/
def mkSample (n : String) (pr : Int) (h : Handler) : RuntimeContainer :=
  { plugin_author := "au"
    plugin_name := n
    enabled := true
    priority := pr
    status := RuntimeContainerStatus.INITIALIZED
    plugin_config := []
    plugin_inst := some ⟨[]⟩
    event_handlers := fun ev => if ev = 0 then some h else none
    init_throws := false
    destroy_throws := false }

def sampleP1 : RuntimeContainer := mkSample "p1" 1 idHandler

def sampleP2 : RuntimeContainer := mkSample "p2" 2 idHandler

def sampleP3 : RuntimeContainer := mkSample "p3" 3 idHandler

/-- Sample collection with priorities listed as [3, 1, 2]. -/
def sampleCs : List RuntimeContainer := [sampleP3, sampleP1, sampleP2]

def cStopper : RuntimeContainer := mkSample "s1" 1 stopHandler

def cAfter : RuntimeContainer := mkSample "s2" 2 idHandler

def stopCs : List RuntimeContainer := [cStopper, cAfter]

def cThrower : RuntimeContainer := mkSample "t1" 1 throwHandler

def cAfterThrow : RuntimeContainer := mkSample "t2" 2 idHandler

def throwCs : List RuntimeContainer := [cThrower, cAfterThrow]

/-- Dispatch-trace record left by `cThrower`. -/
def throwRec : EmitRecord := ⟨cThrower, true, false⟩

def cOverrideX : RuntimeContainer := mkSample "o1" 1 overrideXHandler

def cOverrideY : RuntimeContainer := mkSample "o2" 2 overrideYHandler

def overrideCs : List RuntimeContainer := [cOverrideX, cOverrideY]

/-- Sample event with a single attribute text = t0. -/
def sampleEvent : Event := [("text", "t0")]

/-- Sample enabled, INITIALIZED plugin named p. -/
def cEnabled : RuntimeContainer := mkSample "p" 1 idHandler

/-- Manager state holding just `cEnabled` and no settings rows. -/
def st0 : ManagerState := { containers := [cEnabled], settings := [] }

/-- The container `cEnabled` after a disable: instance released, MOUNTED,
flag off. -/
def cDisabled : RuntimeContainer :=
  { cEnabled with plugin_inst := none
                  status := RuntimeContainerStatus.MOUNTED
                  enabled := false }

/-- Manager state with no plugins at all. -/
def stEmpty : ManagerState := { containers := [], settings := [] }

/-- Sample MOUNTED (not initialized) plugin. -/
def cMounted : RuntimeContainer :=
  { mkSample "m1" 1 idHandler with status := RuntimeContainerStatus.MOUNTED
                                   plugin_inst := none }

/-- Sample INITIALIZED plugin whose teardown hook raises. -/
def cThrowingDestroy : RuntimeContainer :=
  { mkSample "d1" 1 idHandler with destroy_throws := true }

/-- Sample disabled MOUNTED plugin whose init hook raises. -/
def cBadInit : RuntimeContainer :=
  { mkSample "q" 1 idHandler with enabled := false
                                  status := RuntimeContainerStatus.MOUNTED
                                  plugin_inst := none
                                  init_throws := true }

/-- Manager state holding just `cBadInit`. -/
def stBad : ManagerState := { containers := [cBadInit], settings := [] }

def lpA : RuntimeContainer := mkSample "a" 1 idHandler

def lpB : RuntimeContainer := mkSample "b" 2 idHandler

/-- Settings store with a row for plugin b (priority 99, disabled) whose
query for plugin a raises. -/
def storeFail : SettingsStore :=
  { records := [⟨"au", "b", false, 99, []⟩]
    fails := fun a n => a == "au" && n == "a" }

end LangBot

namespace LangBot

/-! Helper lemmas about the dispatch loop. -/

/-- When the walk ends with the postorder flag still false, no break
happened: the dispatched plugins are exactly the input containers that
declare a handler for the event kind, in input order. -/
theorem emit_walk_map_plugin (ev : EvType) (ps : List RuntimeContainer) :
    ∀ ctx : EventContext,
      (emit_walk ev ps ctx).1.prevented_postorder = false →
      (emit_walk ev ps ctx).2.map EmitRecord.plugin =
        ps.filter (fun p => (p.event_handlers ev).isSome) := by
  induction ps with
  | nil => intro ctx _; rfl
  | cons p rest ih =>
    intro ctx h
    cases hh : p.event_handlers ev with
    | none =>
      have h' : (emit_walk ev rest ctx).1.prevented_postorder = false := by
        simpa [emit_walk, hh] using h
      simp [emit_walk, hh, ih ctx h']
    | some f =>
      cases hp : (f p.plugin_inst ctx).1.prevented_postorder with
      | true =>
        exfalso
        have hfix : (emit_walk ev (p :: rest) ctx).1 = (f p.plugin_inst ctx).1 := by
          simp [emit_walk, hh, hp]
        rw [hfix, hp] at h
        simp at h
      | false =>
        have h' :
            (emit_walk ev rest (f p.plugin_inst ctx).1).1.prevented_postorder
              = false := by
          simpa [emit_walk, hh, hp] using h
        simp [emit_walk, hh, hp, ih _ h']

/-- The filtered views `plugins` returns are sublists of the container
collection. -/
theorem plugins_sublist (cs : List RuntimeContainer) (en : Option Bool)
    (st : Option RuntimeContainerStatus) : (plugins cs en st).Sublist cs := by
  unfold plugins
  cases en with
  | none =>
    cases st with
    | none => exact List.Sublist.refl cs
    | some s => exact List.filter_sublist cs
  | some e =>
    cases st with
    | none => exact List.filter_sublist cs
    | some s => exact (List.filter_sublist _).trans (List.filter_sublist cs)

/-- The sort of `load_plugins` yields a collection whose priorities are
pairwise nondecreasing. -/
theorem sortByPriority_sorted (cs : List RuntimeContainer) :
    List.Pairwise (fun a b : RuntimeContainer => a.priority ≤ b.priority)
      (sortByPriority cs) := by
  letI : IsTotal RuntimeContainer
      (fun a b : RuntimeContainer => a.priority ≤ b.priority) :=
    ⟨fun a b => le_total a.priority b.priority⟩
  letI : IsTrans RuntimeContainer
      (fun a b : RuntimeContainer => a.priority ≤ b.priority) :=
    ⟨fun a b c hab hbc => le_trans hab hbc⟩
  exact List.sorted_insertionSort _ cs

/-- Eligible handling containers form a sublist of the collection. -/
theorem handlingEligible_sublist (cs : List RuntimeContainer) (ev : EvType) :
    (handlingEligible cs ev).Sublist cs :=
  (List.filter_sublist _).trans (plugins_sublist cs (some true)
    (some RuntimeContainerStatus.INITIALIZED))

/-- C1.  For every emission over the sorted collection whose walk is not
halted by prevent_postorder, emit dispatches to exactly the containers
that are enabled, INITIALIZED and declare a handler for the runtime kind
of the event, one invocation each, in ascending priority order; the other
containers are skipped. -/
theorem emit_priority_order (cs : List RuntimeContainer) (ev : EvType)
    (e : Event)
    (hpost :
      (emit_event (sortByPriority cs) ev e).1.prevented_postorder = false) :
    (emit_event (sortByPriority cs) ev e).2.map EmitRecord.plugin =
        handlingEligible (sortByPriority cs) ev ∧
      List.Pairwise (fun a b : RuntimeContainer => a.priority ≤ b.priority)
        ((emit_event (sortByPriority cs) ev e).2.map EmitRecord.plugin) := by
  have hflag : (emit_walk ev (plugins (sortByPriority cs) (some true)
      (some RuntimeContainerStatus.INITIALIZED))
      (init_ctx e)).1.prevented_postorder = false := hpost
  have h1 := emit_walk_map_plugin ev
    (plugins (sortByPriority cs) (some true)
      (some RuntimeContainerStatus.INITIALIZED)) (init_ctx e) hflag
  have h2 : (emit_event (sortByPriority cs) ev e).2.map EmitRecord.plugin =
      handlingEligible (sortByPriority cs) ev := h1
  refine ⟨h2, ?_⟩
  rw [h2]
  exact List.Pairwise.sublist (handlingEligible_sublist (sortByPriority cs) ev)
    (sortByPriority_sorted cs)

/-- Witness for C1 on the spec scenario of three plugins with priorities
[3, 1, 2] bound to the same event kind. -/
theorem emit_priority_order_witness :
    (emit_event (sortByPriority sampleCs) 0 []).1.prevented_postorder
        = false ∧
      ((emit_event (sortByPriority sampleCs) 0 []).2.map EmitRecord.plugin =
          handlingEligible (sortByPriority sampleCs) 0 ∧
        List.Pairwise (fun a b : RuntimeContainer => a.priority ≤ b.priority)
          ((emit_event (sortByPriority sampleCs) 0 []).2.map
            EmitRecord.plugin)) :=
  ⟨rfl, emit_priority_order sampleCs 0 [] rfl⟩

/-- No dispatch-trace entry follows one whose invocation was observed to
leave the postorder flag set. -/
theorem emit_walk_halts (ev : EvType) (ps : List RuntimeContainer) :
    ∀ (ctx : EventContext) (pre : List EmitRecord) (rec : EmitRecord)
      (suf : List EmitRecord),
      (emit_walk ev ps ctx).2 = pre ++ rec :: suf →
      rec.postorder_after = true → suf = [] := by
  induction ps with
  | nil =>
    intro ctx pre rec suf h _
    exact absurd h (by simp [emit_walk])
  | cons p rest ih =>
    intro ctx pre rec suf h hrec
    cases hh : p.event_handlers ev with
    | none =>
      have hw : (emit_walk ev (p :: rest) ctx).2 = (emit_walk ev rest ctx).2 := by
        simp [emit_walk, hh]
      exact ih ctx pre rec suf (hw ▸ h) hrec
    | some f =>
      cases hp : (f p.plugin_inst ctx).1.prevented_postorder with
      | true =>
        have hw : (emit_walk ev (p :: rest) ctx).2
            = [⟨p, (f p.plugin_inst ctx).2, true⟩] := by
          simp [emit_walk, hh, hp]
        rw [hw] at h
        cases pre with
        | nil =>
          simp only [List.nil_append, List.cons.injEq] at h
          exact h.2.symm
        | cons x pre' =>
          simp only [List.cons_append, List.cons.injEq] at h
          exact absurd h.2 (by simp)
      | false =>
        have hw : (emit_walk ev (p :: rest) ctx).2
            = ⟨p, (f p.plugin_inst ctx).2, false⟩ ::
              (emit_walk ev rest (f p.plugin_inst ctx).1).2 := by
          simp [emit_walk, hh, hp]
        rw [hw] at h
        cases pre with
        | nil =>
          simp only [List.nil_append, List.cons.injEq] at h
          rw [← h.1] at hrec
          exact absurd hrec (by simp)
        | cons x pre' =>
          simp only [List.cons_append, List.cons.injEq] at h
          exact ih _ pre' rec suf h.2 hrec

/-- C2.  During one emission, as soon as the postorder flag is observed
true right after a handler invocation, no later container is invoked: the
record of that invocation is the last entry of the dispatch trace. -/
theorem emit_postorder_stops (cs : List RuntimeContainer) (ev : EvType)
    (e : Event) (pre : List EmitRecord) (rec : EmitRecord)
    (suf : List EmitRecord)
    (h : (emit_event cs ev e).2 = pre ++ rec :: suf)
    (hrec : rec.postorder_after = true) : suf = [] :=
  emit_walk_halts ev
    (plugins cs (some true) (some RuntimeContainerStatus.INITIALIZED))
    (init_ctx e) pre rec suf h hrec

/-- Witness for C2: the priority-1 plugin sets prevent_postorder, the
priority-2 plugin is never invoked. -/
theorem emit_postorder_stops_witness :
    (emit_event stopCs 0 []).2
        = [] ++ (⟨cStopper, false, true⟩ : EmitRecord) :: [] ∧
      ([] : List EmitRecord) = [] :=
  ⟨rfl, emit_postorder_stops stopCs 0 [] [] ⟨cStopper, false, true⟩ [] rfl rfl⟩

/-- C3.  A handler that raises does not abort the emission: provided the
walk is not halted by prevent_postorder, the dispatch trace still covers
every eligible handling container — including all of those after the
raising one — and the caller still receives the event context. -/
theorem emit_throw_nonfatal (cs : List RuntimeContainer) (ev : EvType)
    (e : Event) (rec : EmitRecord)
    (_hmem : rec ∈ (emit_event cs ev e).2)
    (_hthrew : rec.threw = true)
    (hpost : (emit_event cs ev e).1.prevented_postorder = false) :
    (emit_event cs ev e).2.map EmitRecord.plugin = handlingEligible cs ev :=
  emit_walk_map_plugin ev
    (plugins cs (some true) (some RuntimeContainerStatus.INITIALIZED))
    (init_ctx e) hpost

/-- Witness for C3: the priority-1 handler raises, the priority-2 handler
still runs. -/
theorem emit_throw_nonfatal_witness :
    throwRec ∈ (emit_event throwCs 0 []).2 ∧
      (emit_event throwCs 0 []).2.map EmitRecord.plugin
        = handlingEligible throwCs 0 :=
  ⟨List.mem_cons_self _ _,
    emit_throw_nonfatal throwCs 0 [] throwRec (List.mem_cons_self _ _)
      rfl rfl⟩

/-! Helper lemmas about attribute association lists, for the override
merge. -/

/-- Overwriting an existing attribute yields its new value. -/
theorem lookupField_set_field_self (e : Event) (k : String) (v : Val)
    (h : (lookupField e k).isSome = true) :
    lookupField (set_field e k v) k = some v := by
  induction e with
  | nil => simp [lookupField] at h
  | cons q rest ih =>
    cases hq : (q.1 == k) with
    | true =>
      simp [set_field, lookupField, hq]
    | false =>
      have h' : (lookupField rest k).isSome = true := by
        simpa [lookupField, hq] using h
      simp [set_field, lookupField, hq, ih h']

/-- Overwriting one attribute leaves the others unchanged. -/
theorem lookupField_set_field_ne (e : Event) (k k' : String) (v : Val)
    (h : k' ≠ k) : lookupField (set_field e k' v) k = lookupField e k := by
  induction e with
  | nil =>
    have hne : (k' == k) = false := by simpa using h
    simp [set_field, lookupField, hne]
  | cons q rest ih =>
    cases hq : (q.1 == k') with
    | true =>
      have hne : (k' == k) = false := by
        simpa using h
      have hqk : (q.1 == k) = false := by
        have : q.1 = k' := by simpa using hq
        simpa [this] using hne
      simp [set_field, lookupField, hq, hne, hqk]
    | false =>
      simp [set_field, lookupField, hq, ih]

/-- Overwriting an existing attribute does not change the attribute
names. -/
theorem map_fst_set_field (e : Event) (k : String) (v : Val)
    (h : (lookupField e k).isSome = true) :
    (set_field e k v).map Prod.fst = e.map Prod.fst := by
  induction e with
  | nil => simp [lookupField] at h
  | cons q rest ih =>
    cases hq : (q.1 == k) with
    | true =>
      have : q.1 = k := by simpa using hq
      simp [set_field, hq, this]
    | false =>
      have h' : (lookupField rest k).isSome = true := by
        simpa [lookupField, hq] using h
      simp [set_field, hq, ih h']

/-- The override-merge step never creates or removes attributes. -/
theorem map_fst_apply_return_values (rv : List (String × List Val)) :
    ∀ e : Event,
      (apply_return_values rv e).map Prod.fst = e.map Prod.fst := by
  induction rv with
  | nil => intro e; rfl
  | cons q rest ih =>
    intro e
    cases hs : (lookupField e q.1).isSome with
    | false =>
      simp [apply_return_values, hs, ih]
    | true =>
      cases hq : q.2 with
      | nil =>
        simp [apply_return_values, hs, hq, ih]
      | cons v vs =>
        have hset := map_fst_set_field e q.1 v hs
        simp [apply_return_values, hs, hq, ih, hset]

/-- The override-merge step leaves attributes alone whose name is not in
the override map. -/
theorem lookupField_apply_return_values_not_mem
    (rv : List (String × List Val)) :
    ∀ (e : Event) (k : String), (∀ q ∈ rv, q.1 ≠ k) →
      lookupField (apply_return_values rv e) k = lookupField e k := by
  induction rv with
  | nil => intro e k _; rfl
  | cons q rest ih =>
    intro e k h
    have hq : q.1 ≠ k := h q (List.mem_cons_self _ _)
    have hrest : ∀ q' ∈ rest, q'.1 ≠ k := fun q' hm => h q' (List.mem_cons_of_mem _ hm)
    cases hs : (lookupField e q.1).isSome with
    | false =>
      simp [apply_return_values, hs, ih e k hrest]
    | true =>
      cases hvs : q.2 with
      | nil =>
        simp [apply_return_values, hs, hvs, ih e k hrest]
      | cons v vs =>
        have hset := lookupField_set_field_ne e k q.1 v hq
        simp [apply_return_values, hs, hvs, ih _ k hrest, hset]

/-- First-writer-wins: when the override map has no duplicate field names
and the event has the field, the merge writes the first recorded value. -/
theorem lookupField_apply_return_values_first
    (rv : List (String × List Val)) :
    ∀ (e : Event) (k : String) (v : Val) (vs : List Val),
      (k, v :: vs) ∈ rv → (rv.map Prod.fst).Nodup →
      (lookupField e k).isSome = true →
      lookupField (apply_return_values rv e) k = some v := by
  induction rv with
  | nil => intro e k v vs hmem; simp at hmem
  | cons q rest ih =>
    intro e k v vs hmem hnd hsome
    rw [List.map_cons] at hnd
    have hnotin := (List.nodup_cons.mp hnd).1
    have hnd' := (List.nodup_cons.mp hnd).2
    rcases List.mem_cons.mp hmem with hq | hq
    · subst hq
      have hall : ∀ q' ∈ rest, q'.1 ≠ k := by
        intro q' hm hk
        exact hnotin (List.mem_map.mpr ⟨q', hm, hk⟩)
      have hset := lookupField_set_field_self e k v hsome
      have hkeep := lookupField_apply_return_values_not_mem rest
        (set_field e k v) k hall
      simp only [apply_return_values, hsome, if_true]
      rw [hkeep]
      exact hset
    · have hkin : k ∈ rest.map Prod.fst :=
        List.mem_map.mpr ⟨(k, v :: vs), hq, rfl⟩
      have hne : q.1 ≠ k := fun h => hnotin (h ▸ hkin)
      cases hs : (lookupField e q.1).isSome with
      | false =>
        simp only [apply_return_values, hs, Bool.false_eq_true, if_false]
        exact ih e k v vs hq hnd' hsome
      | true =>
        cases hvs : q.2 with
        | nil =>
          simp only [apply_return_values, hs, hvs, if_true]
          exact ih e k v vs hq hnd' hsome
        | cons w ws =>
          have hpres : (lookupField (set_field e q.1 w) k).isSome = true := by
            rw [lookupField_set_field_ne e k q.1 w hne]
            exact hsome
          simp only [apply_return_values, hs, hvs, if_true]
          exact ih _ k v vs hq hnd' hpres

/-- C4.  After the walk of an emission terminates, for every field name in
the override map the first recorded value is written to the event, and
only onto attributes the event already exposes (the attribute names of the
event are unchanged, so no attribute is created); the full override map,
later contributions included, is retained unchanged in the returned
context. -/
theorem emit_override_merge (cs : List RuntimeContainer) (ev : EvType)
    (e : Event)
    (hnd : ((walk_ctx cs ev e).return_value.map Prod.fst).Nodup)
    (_hne : ∀ q ∈ (walk_ctx cs ev e).return_value, q.2 ≠ ([] : List Val)) :
    (emit_event cs ev e).1.return_value = (walk_ctx cs ev e).return_value ∧
      (emit_event cs ev e).1.event.map Prod.fst =
        (walk_ctx cs ev e).event.map Prod.fst ∧
      ∀ (k : String) (v : Val) (vs : List Val),
        (k, v :: vs) ∈ (walk_ctx cs ev e).return_value →
        (lookupField (walk_ctx cs ev e).event k).isSome = true →
        lookupField (emit_event cs ev e).1.event k = some v := by
  refine ⟨rfl, ?_, ?_⟩
  · exact map_fst_apply_return_values (walk_ctx cs ev e).return_value
      (walk_ctx cs ev e).event
  · intro k v vs hmem hsome
    exact lookupField_apply_return_values_first
      (walk_ctx cs ev e).return_value (walk_ctx cs ev e).event
      k v vs hmem hnd hsome

/-- Witness for C4 on the spec scenario: priority-1 overrides text to x,
priority-2 overrides text to y; the event ends with text = x while both
contributions stay recorded. -/
theorem emit_override_merge_witness :
    ((walk_ctx overrideCs 0 sampleEvent).return_value.map Prod.fst).Nodup ∧
      ((emit_event overrideCs 0 sampleEvent).1.return_value =
          (walk_ctx overrideCs 0 sampleEvent).return_value ∧
        (emit_event overrideCs 0 sampleEvent).1.event.map Prod.fst =
          (walk_ctx overrideCs 0 sampleEvent).event.map Prod.fst ∧
        ∀ (k : String) (v : Val) (vs : List Val),
          (k, v :: vs) ∈ (walk_ctx overrideCs 0 sampleEvent).return_value →
          (lookupField (walk_ctx overrideCs 0 sampleEvent).event k).isSome
            = true →
          lookupField (emit_event overrideCs 0 sampleEvent).1.event k
            = some v) :=
  ⟨by decide,
    emit_override_merge overrideCs 0 sampleEvent (by decide) (by decide)⟩

/-! Helper lemmas for the lifecycle operations. -/

/-- Name lookup skips a leading block of containers with other names. -/
theorem get_plugin_by_name_append (pre l : List RuntimeContainer)
    (n : String) (h : ∀ d ∈ pre, d.plugin_name ≠ n) :
    get_plugin_by_name (pre ++ l) n = get_plugin_by_name l n := by
  induction pre with
  | nil => rfl
  | cons c rest ih =>
    have hc : (c.plugin_name == n) = false := by
      simpa using h c (List.mem_cons_self _ _)
    have hrest : ∀ d ∈ rest, d.plugin_name ≠ n :=
      fun d hm => h d (List.mem_cons_of_mem _ hm)
    simp only [get_plugin_by_name, List.cons_append, List.find?_cons, hc]
    exact ih hrest

/-- The scan loop of `update_plugin_switch` passes over a leading block of
containers with other names unchanged. -/
theorem switch_scan_append (v : Bool) (n : String)
    (pre l : List RuntimeContainer)
    (h : ∀ d ∈ pre, d.plugin_name ≠ n) :
    switch_scan v n (pre ++ l) =
      (pre ++ (switch_scan v n l).1, (switch_scan v n l).2) := by
  induction pre with
  | nil => rfl
  | cons c rest ih =>
    have hc : (c.plugin_name == n) = false := by
      simpa using h c (List.mem_cons_self _ _)
    have hrest : ∀ d ∈ rest, d.plugin_name ≠ n :=
      fun d hm => h d (List.mem_cons_of_mem _ hm)
    simp only [List.cons_append, switch_scan, hc, Bool.false_eq_true,
      if_false]
    exact congrArg (fun w : List RuntimeContainer × SwitchOutcome =>
      (c :: w.1, w.2)) (ih hrest)

/-- Full characterization of `update_plugin_switch` on a collection whose
first container named `n` is `c`. -/
theorem update_plugin_switch_first_named (st : ManagerState) (n : String)
    (v : Bool) (pre : List RuntimeContainer) (c : RuntimeContainer)
    (post : List RuntimeContainer)
    (hst : st.containers = pre ++ c :: post)
    (hpre : ∀ d ∈ pre, d.plugin_name ≠ n)
    (hc : c.plugin_name = n) :
    update_plugin_switch st n v =
      if c.enabled = v then (st, Except.ok false)
      else if (switch_apply c v).2 = true then
        ({ st with containers := pre ++ (switch_apply c v).1 :: post },
          Except.error PErr.hookError)
      else
        ({ containers :=
             pre ++ { (switch_apply c v).1 with enabled := v } :: post
           settings := dump_setting st.settings
             { (switch_apply c v).1 with enabled := v } },
          Except.ok true) := by
  have hcb : (c.plugin_name == n) = true := by simpa using hc
  have hget : get_plugin_by_name st.containers n = some c := by
    rw [hst, get_plugin_by_name_append pre (c :: post) n hpre]
    simp [get_plugin_by_name, List.find?_cons, hcb]
  have hscan := switch_scan_append v n pre (c :: post) hpre
  by_cases he : c.enabled = v
  · have heb : (c.enabled == v) = true := by simpa using he
    have hsc2 : switch_scan v n st.containers
        = (pre ++ c :: post, SwitchOutcome.alreadySet) := by
      rw [hst, hscan]
      simp [switch_scan, hcb, heb]
    rw [if_pos he]
    unfold update_plugin_switch
    rw [hget, hsc2, ← hst]
    rfl
  · have heb : (c.enabled == v) = false := by simpa using he
    rw [if_neg he]
    cases ha : (switch_apply c v).2 with
    | true =>
      have hsc2 : switch_scan v n st.containers
          = (pre ++ (switch_apply c v).1 :: post, SwitchOutcome.failed) := by
        rw [hst, hscan]
        simp [switch_scan, hcb, heb, ha]
      rw [if_pos rfl]
      unfold update_plugin_switch
      rw [hget, hsc2]
      rfl
    | false =>
      have hsc2 : switch_scan v n st.containers
          = (pre ++ { (switch_apply c v).1 with enabled := v } :: post,
            SwitchOutcome.switched
              { (switch_apply c v).1 with enabled := v }) := by
        rw [hst, hscan]
        simp [switch_scan, hcb, heb, ha]
      rw [if_neg (show ¬(false = true) from fun hx => Bool.noConfusion hx)]
      unfold update_plugin_switch
      rw [hget, hsc2]
      rfl

/-- Counterexample to C5 as stated: with plugin p already enabled,
requesting enabled=true is a no-op that returns False, not True. -/
theorem update_plugin_switch_noop_returns_false :
    (update_plugin_switch st0 "p" true).2 = Except.ok false ∧
      (update_plugin_switch st0 "p" true).2 ≠ Except.ok true := by
  have h0 : (update_plugin_switch st0 "p" true).2 = Except.ok false := rfl
  refine ⟨h0, ?_⟩
  rw [h0]
  intro h
  injection h with h'
  exact Bool.noConfusion h'

/-- C5 (amended).  `update_plugin_switch(name, value)` returns false when
no container matches the name; it also returns false — not true — as a
no-op when the matching container's enabled flag already equals the
requested value; otherwise it toggles (enabling runs the init path,
disabling the destroy path), updates the enabled flag, persists the
settings row, and returns true. -/
theorem update_plugin_switch_cases (st : ManagerState) (n : String)
    (v : Bool) :
    ((∀ d ∈ st.containers, d.plugin_name ≠ n) →
      update_plugin_switch st n v = (st, Except.ok false)) ∧
    (∀ (pre : List RuntimeContainer) (c : RuntimeContainer)
        (post : List RuntimeContainer),
      st.containers = pre ++ c :: post →
      (∀ d ∈ pre, d.plugin_name ≠ n) → c.plugin_name = n →
      (c.enabled = v → update_plugin_switch st n v = (st, Except.ok false)) ∧
      (c.enabled ≠ v → (switch_apply c v).2 = false →
        update_plugin_switch st n v =
          ({ containers :=
               pre ++ { (switch_apply c v).1 with enabled := v } :: post
             settings := dump_setting st.settings
               { (switch_apply c v).1 with enabled := v } },
            Except.ok true))) := by
  constructor
  · intro hall
    have hget : get_plugin_by_name st.containers n = none := by
      unfold get_plugin_by_name
      rw [List.find?_eq_none]
      intro a ha
      simpa using hall a ha
    unfold update_plugin_switch
    rw [hget]
    rfl
  · intro pre c post hst hpre hc
    have H := update_plugin_switch_first_named st n v pre c post hst hpre hc
    constructor
    · intro he
      rw [H, if_pos he]
    · intro he ha
      rw [H, if_neg he, if_neg (by rw [ha]; exact fun hx => Bool.noConfusion hx)]

/-- Witness for C5: disabling the enabled plugin p toggles it (destroy
path), persists, and returns true. -/
theorem update_plugin_switch_cases_witness :
    update_plugin_switch st0 "p" false =
      ({ containers := [cDisabled], settings := [] }, Except.ok true) :=
  ((update_plugin_switch_cases st0 "p" false).2 [] cEnabled [] rfl
    (by intro d hd; exact absurd hd (List.not_mem_nil d)) rfl).2
    (by decide) rfl

/-- C9.  Disabling an enabled INITIALIZED plugin and then re-enabling it
returns its status to INITIALIZED and leaves its config equal to the value
current immediately before disabling; the freshly constructed instance
receives that same config. -/
theorem disable_enable_roundtrip (st : ManagerState) (n : String)
    (pre : List RuntimeContainer) (c : RuntimeContainer)
    (post : List RuntimeContainer)
    (hst : st.containers = pre ++ c :: post)
    (hpre : ∀ d ∈ pre, d.plugin_name ≠ n)
    (hc : c.plugin_name = n)
    (hen : c.enabled = true)
    (hstat : c.status = RuntimeContainerStatus.INITIALIZED)
    (hdt : c.destroy_throws = false)
    (hit : c.init_throws = false) :
    ∃ c2 : RuntimeContainer,
      (update_plugin_switch (update_plugin_switch st n false).1 n
          true).1.containers = pre ++ c2 :: post ∧
        c2.status = RuntimeContainerStatus.INITIALIZED ∧
        c2.plugin_config = c.plugin_config ∧
        c2.plugin_inst = some ⟨c.plugin_config⟩ ∧
        c2.enabled = true := by
  have hd : destroy_plugin c =
      ({ c with plugin_inst := none
                status := RuntimeContainerStatus.MOUNTED },
        false, [PluginAction.destroyHook c.plugin_author c.plugin_name]) := by
    simp [destroy_plugin, hstat, hdt]
  have hsa : switch_apply c false =
      ({ c with plugin_inst := none
                status := RuntimeContainerStatus.MOUNTED }, false) := by
    simp [switch_apply, hd]
  have H1 := update_plugin_switch_first_named st n false pre c post hst hpre hc
  rw [if_neg (by rw [hen]; exact fun hx => Bool.noConfusion hx),
    if_neg (by rw [hsa]; exact fun hx => Bool.noConfusion hx), hsa] at H1
  rw [H1]
  have H2 := update_plugin_switch_first_named
    ({ containers := pre ++
        ({ { c with plugin_inst := none
                    status := RuntimeContainerStatus.MOUNTED }
          with enabled := false }) :: post
       settings := dump_setting st.settings
        { { c with plugin_inst := none
                   status := RuntimeContainerStatus.MOUNTED }
          with enabled := false } } : ManagerState) n true pre
    ({ { c with plugin_inst := none
                status := RuntimeContainerStatus.MOUNTED }
      with enabled := false }) post rfl hpre hc
  have hip : switch_apply
      ({ { c with plugin_inst := none
                  status := RuntimeContainerStatus.MOUNTED }
        with enabled := false }) true =
      ({ c with plugin_inst := some ⟨c.plugin_config⟩
                status := RuntimeContainerStatus.INITIALIZED
                enabled := false }, false) := by
    simp [switch_apply, init_plugin, hit]
  rw [if_neg (show ¬(false = true) from fun hx => Bool.noConfusion hx),
    if_neg (by rw [hip]; exact fun hx => Bool.noConfusion hx), hip] at H2
  rw [H2]
  exact ⟨{ c with plugin_inst := some ⟨c.plugin_config⟩
                  status := RuntimeContainerStatus.INITIALIZED
                  enabled := true }, rfl, rfl, rfl, rfl, rfl⟩

/-- Witness for C9 on the concrete enabled plugin p. -/
theorem disable_enable_roundtrip_witness :
    ∃ c2 : RuntimeContainer,
      (update_plugin_switch (update_plugin_switch st0 "p" false).1 "p"
          true).1.containers = [] ++ c2 :: [] ∧
        c2.status = RuntimeContainerStatus.INITIALIZED ∧
        c2.plugin_config = cEnabled.plugin_config ∧
        c2.plugin_inst = some ⟨cEnabled.plugin_config⟩ ∧
        c2.enabled = true :=
  disable_enable_roundtrip st0 "p" [] cEnabled [] rfl
    (by intro d hd; exact absurd hd (List.not_mem_nil d)) rfl rfl rfl rfl rfl

/-- C10.  When enabling runs the init path and the init hook raises, the
exception propagates to the caller and neither the enabled flag, nor the
status (still MOUNTED), nor the persisted settings rows are changed. -/
theorem enable_fail_state_unchanged (st : ManagerState) (n : String)
    (pre : List RuntimeContainer) (c : RuntimeContainer)
    (post : List RuntimeContainer)
    (hst : st.containers = pre ++ c :: post)
    (hpre : ∀ d ∈ pre, d.plugin_name ≠ n)
    (hc : c.plugin_name = n)
    (hen : c.enabled = false)
    (hstat : c.status = RuntimeContainerStatus.MOUNTED)
    (hit : c.init_throws = true) :
    (update_plugin_switch st n true).2 = Except.error PErr.hookError ∧
      (update_plugin_switch st n true).1.settings = st.settings ∧
      ∃ c' : RuntimeContainer,
        (update_plugin_switch st n true).1.containers = pre ++ c' :: post ∧
          c'.enabled = false ∧
          c'.status = RuntimeContainerStatus.MOUNTED := by
  have hsa : switch_apply c true =
      ({ c with plugin_inst := some ⟨c.plugin_config⟩ }, true) := by
    simp [switch_apply, init_plugin, hit]
  have H := update_plugin_switch_first_named st n true pre c post hst hpre hc
  rw [if_neg (by rw [hen]; exact fun hx => Bool.noConfusion hx),
    if_pos (by rw [hsa]), hsa] at H
  rw [H]
  exact ⟨rfl, rfl,
    ⟨{ c with plugin_inst := some ⟨c.plugin_config⟩ }, rfl, hen, hstat⟩⟩

/-- Witness for C10 on the concrete disabled plugin q with a raising init
hook. -/
theorem enable_fail_state_unchanged_witness :
    (update_plugin_switch stBad "q" true).2 = Except.error PErr.hookError ∧
      (update_plugin_switch stBad "q" true).1.settings = stBad.settings ∧
      ∃ c' : RuntimeContainer,
        (update_plugin_switch stBad "q" true).1.containers
            = [] ++ c' :: [] ∧
          c'.enabled = false ∧
          c'.status = RuntimeContainerStatus.MOUNTED :=
  enable_fail_state_unchanged stBad "q" [] cBadInit [] rfl
    (by intro d hd; exact absurd hd (List.not_mem_nil d)) rfl rfl rfl rfl

/-! Helper lemmas about the settings merge. -/

/-- When the store fails for no container of the list, the merge raises no
error. -/
theorem load_plugin_settings_err_false :
    ∀ (cs : List RuntimeContainer) (store : SettingsStore),
      (∀ d ∈ cs, store.fails d.plugin_author d.plugin_name = false) →
      (load_plugin_settings store cs).2.2 = false := by
  intro cs
  induction cs with
  | nil => intro store _; rfl
  | cons c rest ih =>
    intro store h
    have hc := h c (List.mem_cons_self _ _)
    have hrest : ∀ d ∈ rest, store.fails d.plugin_author d.plugin_name
        = false := fun d hm => h d (List.mem_cons_of_mem _ hm)
    cases hfind : find_setting store.records c.plugin_author c.plugin_name with
    | none =>
      simp only [load_plugin_settings, hc, Bool.false_eq_true, if_false,
        hfind]
      exact ih _ hrest
    | some s =>
      simp only [load_plugin_settings, hc, Bool.false_eq_true, if_false,
        hfind]
      exact ih _ hrest

/-- The merge never changes which keys make the store fail. -/
theorem load_plugin_settings_fails_eq :
    ∀ (cs : List RuntimeContainer) (store : SettingsStore),
      (load_plugin_settings store cs).2.1.fails = store.fails := by
  intro cs
  induction cs with
  | nil => intro store; rfl
  | cons c rest ih =>
    intro store
    cases hf : store.fails c.plugin_author c.plugin_name with
    | true => simp [load_plugin_settings, hf]
    | false =>
      cases hfind : find_setting store.records c.plugin_author
          c.plugin_name with
      | none =>
        simp only [load_plugin_settings, hf, Bool.false_eq_true, if_false,
          hfind]
        exact ih _
      | some s =>
        simp only [load_plugin_settings, hf, Bool.false_eq_true, if_false,
          hfind]
        exact ih _

/-- The merge of a concatenation splits, provided the front part raises no
error. -/
theorem load_plugin_settings_append :
    ∀ (pre : List RuntimeContainer) (store : SettingsStore)
      (rest : List RuntimeContainer),
      (load_plugin_settings store pre).2.2 = false →
      load_plugin_settings store (pre ++ rest) =
        ((load_plugin_settings store pre).1 ++
            (load_plugin_settings (load_plugin_settings store pre).2.1
              rest).1,
          (load_plugin_settings (load_plugin_settings store pre).2.1
            rest).2) := by
  intro pre
  induction pre with
  | nil => intro store rest _; rfl
  | cons c pre' ih =>
    intro store rest herr
    cases hf : store.fails c.plugin_author c.plugin_name with
    | true =>
      exfalso
      simp [load_plugin_settings, hf] at herr
    | false =>
      cases hfind : find_setting store.records c.plugin_author
          c.plugin_name with
      | none =>
        have herr' : (load_plugin_settings
            { store with records := store.records ++
                [⟨c.plugin_author, c.plugin_name, c.enabled, c.priority,
                  c.plugin_config⟩] } pre').2.2 = false := by
          simpa only [load_plugin_settings, hf, Bool.false_eq_true,
            if_false, hfind] using herr
        have hrec := ih _ rest herr'
        simp only [List.cons_append, load_plugin_settings, hf,
          Bool.false_eq_true, if_false, hfind]
        exact congrArg
          (fun w : List RuntimeContainer × SettingsStore × Bool =>
            (c :: w.1, w.2)) hrec
      | some s =>
        have herr' : (load_plugin_settings store pre').2.2 = false := by
          simpa only [load_plugin_settings, hf, Bool.false_eq_true,
            if_false, hfind] using herr
        have hrec := ih _ rest herr'
        simp only [List.cons_append, load_plugin_settings, hf,
          Bool.false_eq_true, if_false, hfind]
        exact congrArg
          (fun w : List RuntimeContainer × SettingsStore × Bool =>
            ({ c with enabled := s.enabled
                      priority := s.priority
                      plugin_config := s.config } :: w.1, w.2)) hrec

/-- Counterexample to C6 as stated: the store raises for plugin a, and
plugin b — although it has a persisted row with priority 99 — is left
unmerged (priority still 2); the failure aborts the whole merge. -/
theorem load_settings_not_isolated :
    (load_plugin_settings storeFail [lpA, lpB]).2.2 = true ∧
      (load_plugin_settings storeFail [lpA, lpB]).1 = [lpA, lpB] ∧
      lpB.priority = 2 ∧
      find_setting storeFail.records lpB.plugin_author lpB.plugin_name
        = some ⟨"au", "b", false, 99, []⟩ :=
  ⟨rfl, rfl, rfl, rfl⟩

/-- C6 (amended).  A settings-store failure while processing one container
aborts the merge: the exception propagates out of `load_plugin_settings`,
the containers processed before the failure keep their merged values, and
the failing container and every later one keep their discovery-time
defaults untouched. -/
theorem load_settings_failure_aborts (store : SettingsStore)
    (pre : List RuntimeContainer) (c : RuntimeContainer)
    (post : List RuntimeContainer)
    (hpre : ∀ d ∈ pre, store.fails d.plugin_author d.plugin_name = false)
    (hfail : store.fails c.plugin_author c.plugin_name = true) :
    load_plugin_settings store (pre ++ c :: post) =
      ((load_plugin_settings store pre).1 ++ c :: post,
        (load_plugin_settings store pre).2.1, true) := by
  have herr := load_plugin_settings_err_false pre store hpre
  rw [load_plugin_settings_append pre store (c :: post) herr]
  have hfail2 : (load_plugin_settings store pre).2.1.fails c.plugin_author
      c.plugin_name = true := by
    rw [load_plugin_settings_fails_eq]
    exact hfail
  have hstop : load_plugin_settings (load_plugin_settings store pre).2.1
      (c :: post) =
      (c :: post, (load_plugin_settings store pre).2.1, true) := by
    simp [load_plugin_settings, hfail2]
  rw [hstop]

/-- Witness for C6 (amended): store fails on plugin a; the merged b keeps
its store row values, a and everything after it stay untouched, and the
error propagates. -/
theorem load_settings_failure_aborts_witness :
    load_plugin_settings storeFail [lpB, lpA] =
      ([{ lpB with enabled := false
                   priority := 99
                   plugin_config := [] }, lpA], storeFail, true) :=
  load_settings_failure_aborts storeFail [lpB] lpA [] (by decide) rfl

/-- Counterexample to C7 as stated: on an INITIALIZED container whose
teardown hook raises, `destroy_plugin` propagates the exception and leaves
the container INITIALIZED with the instance still referenced, instead of
swallowing the error and ending MOUNTED with the instance cleared. -/
theorem destroy_plugin_throw_propagates :
    (destroy_plugin cThrowingDestroy).2.1 = true ∧
      (destroy_plugin cThrowingDestroy).1.status
        = RuntimeContainerStatus.INITIALIZED ∧
      (destroy_plugin cThrowingDestroy).1.plugin_inst = some ⟨[]⟩ :=
  ⟨rfl, rfl, rfl⟩

/-- C7 (amended).  `destroy_plugin` is a no-op whenever status is not
INITIALIZED.  When status is INITIALIZED it invokes the teardown hook;
an exception from the hook propagates to the caller of `destroy_plugin`,
leaving the container INITIALIZED with its instance still referenced,
while on success the container ends MOUNTED with the instance cleared.
The batch `destroy_plugins` catches such exceptions and still processes
every container. -/
theorem destroy_plugin_spec (c : RuntimeContainer) :
    (c.status ≠ RuntimeContainerStatus.INITIALIZED →
      destroy_plugin c = (c, false, [])) ∧
    (c.status = RuntimeContainerStatus.INITIALIZED →
      c.destroy_throws = true →
      destroy_plugin c =
        (c, true,
          [PluginAction.destroyHook c.plugin_author c.plugin_name])) ∧
    (c.status = RuntimeContainerStatus.INITIALIZED →
      c.destroy_throws = false →
      destroy_plugin c =
        ({ c with plugin_inst := none
                  status := RuntimeContainerStatus.MOUNTED },
          false,
          [PluginAction.destroyHook c.plugin_author c.plugin_name])) ∧
    ∀ cs : List RuntimeContainer,
      (destroy_plugins cs).length = cs.length := by
  refine ⟨?_, ?_, ?_, ?_⟩
  · intro h
    simp [destroy_plugin, h]
  · intro h1 h2
    simp [destroy_plugin, h1, h2]
  · intro h1 h2
    simp [destroy_plugin, h1, h2]
  · intro cs
    induction cs with
    | nil => rfl
    | cons c' rest ih =>
      by_cases h : c'.status = RuntimeContainerStatus.INITIALIZED
      · simp [destroy_plugins, h, ih]
      · simp [destroy_plugins, h, ih]

/-- Witness for C7 (amended) on the three concrete containers: a MOUNTED
one (no-op), one with a raising teardown (propagates, state kept), and a
healthy INITIALIZED one (released). -/
theorem destroy_plugin_spec_witness :
    destroy_plugin cMounted = (cMounted, false, []) ∧
      destroy_plugin cThrowingDestroy = (cThrowingDestroy, true,
        [PluginAction.destroyHook "au" "d1"]) ∧
      destroy_plugin cEnabled =
        ({ cEnabled with plugin_inst := none
                         status := RuntimeContainerStatus.MOUNTED },
          false, [PluginAction.destroyHook "au" "p"]) :=
  ⟨(destroy_plugin_spec cMounted).1 (by decide),
    (destroy_plugin_spec cThrowingDestroy).2.1 rfl rfl,
    (destroy_plugin_spec cEnabled).2.2.1 rfl rfl⟩

/-- C8.  Uninstalling a plugin that is INITIALIZED (with a teardown that
returns) runs its destroy hook exactly once, before the installer's
uninstall; uninstalling an unknown name surfaces a not-found error and
never reaches the installer. -/
theorem uninstall_destroy_first_or_not_found (st : ManagerState)
    (n : String) :
    (∀ c : RuntimeContainer, get_plugin_by_name st.containers n = some c →
      c.status = RuntimeContainerStatus.INITIALIZED →
      c.destroy_throws = false →
      (uninstall_plugin st n).2.1 =
        [PluginAction.destroyHook c.plugin_author c.plugin_name,
          PluginAction.installerUninstall n, PluginAction.reloadPlugin] ∧
      (uninstall_plugin st n).2.2 = none) ∧
    (get_plugin_by_name st.containers n = none →
      (uninstall_plugin st n).2.1 = [] ∧
      (uninstall_plugin st n).2.2 = some PErr.notFound) := by
  constructor
  · intro c hget hstat hdt
    have hd : destroy_plugin c =
        ({ c with plugin_inst := none
                  status := RuntimeContainerStatus.MOUNTED },
          false,
          [PluginAction.destroyHook c.plugin_author c.plugin_name]) := by
      simp [destroy_plugin, hstat, hdt]
    simp only [uninstall_plugin, hget, hd]
    exact ⟨by trivial, by trivial⟩
  · intro hget
    simp only [uninstall_plugin, hget]
    exact ⟨by trivial, by trivial⟩

/-- Witness for C8: uninstalling the INITIALIZED plugin p traces its
destroy hook once and then the installer; uninstalling from an empty
collection surfaces not-found with no installer action. -/
theorem uninstall_destroy_first_witness :
    ((uninstall_plugin st0 "p").2.1 =
        [PluginAction.destroyHook "au" "p",
          PluginAction.installerUninstall "p", PluginAction.reloadPlugin] ∧
      (uninstall_plugin st0 "p").2.2 = none) ∧
      ((uninstall_plugin stEmpty "p").2.1 = [] ∧
        (uninstall_plugin stEmpty "p").2.2 = some PErr.notFound) :=
  ⟨(uninstall_destroy_first_or_not_found st0 "p").1 cEnabled rfl rfl rfl,
    (uninstall_destroy_first_or_not_found stEmpty "p").2 rfl⟩

end LangBot
